import Mathlib

/-
Verification of the training-loop orchestrator in train.py:
a shallow embedding of the learning-rate schedule (get_lr), the
hyperparameter gradient-masking policy, the manual decoupled weight
decay, the startup mode assertion, and the evaluation / checkpoint /
logging / termination structure of the main loop, together with
theorems settling the specification claims about them.
-/

namespace Mada

/-- Possible values of a Python float as observed by the loop: a finite
rational, positive or negative infinity, or NaN.  Used for loss values,
where the termination check calls math.isnan. -/
inductive LossVal where
  | val (q : ℚ)
  | inf
  | neginf
  | nan
deriving DecidableEq

/-- IEEE-style strict comparison on LossVal: any comparison involving
NaN is false; -inf below every finite value, +inf above. -/
def LossVal.ltB : LossVal → LossVal → Bool
  | LossVal.nan, _ => false
  | _, LossVal.nan => false
  | LossVal.neginf, LossVal.neginf => false
  | LossVal.neginf, _ => true
  | _, LossVal.neginf => false
  | LossVal.inf, _ => false
  | LossVal.val _, LossVal.inf => true
  | LossVal.val a, LossVal.val b => decide (a < b)

/-- math.isnan on the float model: true exactly on NaN. -/
def LossVal.isnan : LossVal → Bool
  | LossVal.nan => true
  | _ => false

/-- math.isfinite on the float model: true exactly on finite values. -/
def LossVal.isfinite : LossVal → Bool
  | LossVal.val _ => true
  | _ => false

/-- Names of the gdtuo Meta optimizer hyperparameters threaded through
the training loop (mw.optimizer.parameters). -/
inductive HName where
  | alpha
  | beta1
  | beta2
  | beta3
  | rho
  | c
  | gamma
deriving DecidableEq

/-- Gradient-masking policy, train.py lines 344-352.  After the single
backward pass: alpha's gradient is zeroed unconditionally; if adam,
every hyperparameter's gradient is zeroed; else if hyperadam, every
hyperparameter's gradient except beta1 and beta2 is zeroed; otherwise
(full mode) nothing further is zeroed.  Gradients of the scalar
hyperparameters are modelled as rationals. -/
def maskGrads (adam hyperadam : Bool) (g : HName → ℚ) : HName → ℚ :=
  let g1 : HName → ℚ := fun n => if n = HName.alpha then 0 else g n
  if adam = true then fun _ => 0
  else if hyperadam = true then
    fun n => if n ≠ HName.beta1 ∧ n ≠ HName.beta2 then 0 else g1 n
  else g1

/-- A model parameter as seen by the manual weight-decay loop: its data
(modelled as a rational scalar), its tensor rank (p.data.dim()), and its
requires_grad flag. -/
structure TrainParam where
  data : ℚ
  dim : ℕ
  requires_grad : Bool
deriving DecidableEq

/-- One parameter's manual weight-decay update, train.py lines 363-365:
if p.data.dim() >= 2 and p.requires_grad then
p.data := p.data - alpha * weight_decay * p.data, else unchanged. -/
def decayParam (alpha weight_decay : ℚ) (p : TrainParam) : TrainParam :=
  if 2 ≤ p.dim ∧ p.requires_grad = true then
    { p with data := p.data - alpha * weight_decay * p.data }
  else p

/-- The manual weight-decay pass over all model parameters,
train.py lines 362-365. -/
def weightDecayStep (alpha weight_decay : ℚ) (ps : List TrainParam) : List TrainParam :=
  ps.map (decayParam alpha weight_decay)

/-- Configuration of the learning-rate schedule get_lr,
train.py lines 69, 81-83. -/
structure LrCfg where
  learning_rate : ℝ
  min_lr : ℝ
  warmup_iters : ℕ
  lr_decay_iters : ℕ

/-- Learning-rate schedule, train.py lines 253-264.  Linear warmup for
warmup_iters steps, constant min_lr past lr_decay_iters, cosine decay
in between.  The middle branch carries the source's
assert 0 <= decay_ratio <= 1; a failed assertion is modelled as none. -/
noncomputable def get_lr (cfg : LrCfg) (it : ℕ) : Option ℝ :=
  if it < cfg.warmup_iters then
    some (cfg.learning_rate * (it : ℝ) / (cfg.warmup_iters : ℝ))
  else if cfg.lr_decay_iters < it then
    some cfg.min_lr
  else if 0 ≤ ((it : ℝ) - (cfg.warmup_iters : ℝ)) / ((cfg.lr_decay_iters : ℝ) - (cfg.warmup_iters : ℝ)) ∧
      ((it : ℝ) - (cfg.warmup_iters : ℝ)) / ((cfg.lr_decay_iters : ℝ) - (cfg.warmup_iters : ℝ)) ≤ 1 then
    some (cfg.min_lr + 0.5 * (1 + Real.cos (Real.pi *
      (((it : ℝ) - (cfg.warmup_iters : ℝ)) / ((cfg.lr_decay_iters : ℝ) - (cfg.warmup_iters : ℝ))))) *
      (cfg.learning_rate - cfg.min_lr))
  else none

/-- The default schedule configuration of train.py: learning_rate 6e-4,
min_lr 6e-5, warmup_iters 2000, lr_decay_iters 600000. -/
noncomputable def defaultLrCfg : LrCfg :=
  ⟨0.0006, 0.00006, 2000, 600000⟩

/-- Startup actions of the script, in source order: configuration
loading (lines 94-96), output-directory creation (line 123), model
construction (lines 164-211), and the first batch read (line 272).
The mutual-exclusion assertion of line 98 sits between the first and
the second. -/
inductive StartAction where
  | configLoad
  | makeOutDir
  | modelInit
  | firstBatchRead
deriving DecidableEq

/-- Startup sequence of train.py with the line-98 assertion
assert not (adam and hyperadam): returns the actions performed and
whether startup succeeded; on a failed assertion the actions after
line 98 never run. -/
def startup (adam hyperadam : Bool) : List StartAction × Bool :=
  if adam = true ∧ hyperadam = true then
    ([StartAction.configLoad], false)
  else
    ([StartAction.configLoad, StartAction.makeOutDir, StartAction.modelInit,
      StartAction.firstBatchRead], true)

/-- Disk / console I/O events the loop can perform: an estimate_loss
evaluation pass (lines 305, 393), a checkpoint save (line 329), a
periodic log write (lines 375-385), and the final summary results-file
write (lines 404-413). -/
inductive Event where
  | evalPass
  | checkpointWrite
  | logWrite
  | summaryWrite
deriving DecidableEq

/-- Configuration flags read by the training loop. -/
structure LoopCfg where
  eval_interval : ℕ
  log_interval : ℕ
  max_iters : ℕ
  master_process : Bool
  always_save_checkpoint : Bool
  eval_only : Bool
  hypergrad : Bool
  adam : Bool
  hyperadam : Bool
deriving DecidableEq

/-- Mutable state of the training loop.  losses and lossf model the
Python variables of those names, which are assigned only inside guarded
blocks: none means the variable is not yet bound, so reading it raises
NameError. -/
structure LoopSt where
  iter_num : ℕ
  best_val_loss : LossVal
  losses : Option (LossVal × LossVal)
  lossf : Option LossVal
deriving DecidableEq

/-- How one pass through the loop body ends: fall through to the next
iteration, break out of the loop, or crash with an exception. -/
inductive Outcome where
  | next
  | broke
  | crashed
deriving DecidableEq

/-- The best_val_loss update of train.py lines 315-316: overwrite with
the new validation loss whenever it improves or always_save_checkpoint
is set. -/
def bestUpdate (always : Bool) (best v : LossVal) : LossVal :=
  if LossVal.ltB v best = true ∨ always = true then v else best

/-- Evaluation and checkpoint block, train.py lines 304-329: on master,
every eval_interval iterations, run estimate_loss (binding losses),
update best_val_loss per bestUpdate, and write a checkpoint when the
update condition held and iter_num > 0.  pe is the pair
(train loss, val loss) this estimate_loss call would return. -/
def evalCkptBlock (cfg : LoopCfg) (st : LoopSt) (pe : LossVal × LossVal) :
    List Event × LoopSt :=
  if st.iter_num % cfg.eval_interval = 0 ∧ cfg.master_process = true then
    let st1 : LoopSt :=
      { st with losses := some pe,
                best_val_loss := bestUpdate cfg.always_save_checkpoint st.best_val_loss pe.2 }
    if LossVal.ltB pe.2 st.best_val_loss = true ∨ cfg.always_save_checkpoint = true then
      if 0 < st.iter_num then
        ([Event.evalPass, Event.checkpointWrite], st1)
      else
        ([Event.evalPass], st1)
    else
      ([Event.evalPass], st1)
  else ([], st)

/-- Logging block, train.py lines 375-385: on master, every
log_interval iterations, bind lossf from the current loss and print the
log line; line 384 then reads losses, raising NameError when it is
unbound (third component true means crashed). -/
def logBlock (cfg : LoopCfg) (st : LoopSt) (cur_loss : LossVal) :
    List Event × LoopSt × Bool :=
  if st.iter_num % cfg.log_interval = 0 ∧ cfg.master_process = true then
    let st1 : LoopSt := { st with lossf := some cur_loss }
    match st.losses with
    | none => ([Event.logWrite], st1, true)
    | some _ => ([Event.logWrite], st1, false)
  else ([], st, false)

/-- Termination block body, train.py lines 393-414: one more
estimate_loss call (rebinding losses from fe), then the line-398 print
reads lossf — NameError if unbound — and finally, when hypergrad is
set, a summary row is appended to the mode-specific results file before
the break. -/
def termBlock (cfg : LoopCfg) (st : LoopSt) (fe : LossVal × LossVal) :
    List Event × LoopSt × Outcome :=
  let st1 : LoopSt := { st with losses := some fe }
  match st1.lossf with
  | none => ([Event.evalPass], st1, Outcome.crashed)
  | some _ =>
    if cfg.hypergrad = true then
      ([Event.evalPass, Event.summaryWrite], st1, Outcome.broke)
    else
      ([Event.evalPass], st1, Outcome.broke)

/-- One pass through the while-True body, train.py lines 293-414, in
source order: eval/checkpoint block; the eval_only break (line 331);
the training step (no modelled I/O); the logging block; iter_num
increment (line 387); and the termination check (line 392), whose
"or" short-circuits — losses is read only when iter_num <= max_iters,
raising NameError when unbound.  cur_loss is this iteration's training
loss; pe and fe are the results of the periodic and final
estimate_loss calls. -/
def loopBody (cfg : LoopCfg) (st : LoopSt) (cur_loss : LossVal)
    (pe fe : LossVal × LossVal) : List Event × LoopSt × Outcome :=
  let r1 := evalCkptBlock cfg st pe
  if r1.2.iter_num = 0 ∧ cfg.eval_only = true then
    (r1.1, r1.2, Outcome.broke)
  else
    let r2 := logBlock cfg r1.2 cur_loss
    if r2.2.2 = true then
      (r1.1 ++ r2.1, r2.2.1, Outcome.crashed)
    else
      let st3 : LoopSt := { r2.2.1 with iter_num := r2.2.1.iter_num + 1 }
      if cfg.max_iters < st3.iter_num then
        let r4 := termBlock cfg st3 fe
        (r1.1 ++ r2.1 ++ r4.1, r4.2.1, r4.2.2)
      else
        match st3.losses with
        | none => (r1.1 ++ r2.1, st3, Outcome.crashed)
        | some l =>
          if l.1.isnan = true then
            let r4 := termBlock cfg st3 fe
            (r1.1 ++ r2.1 ++ r4.1, r4.2.1, r4.2.2)
          else
            (r1.1 ++ r2.1, st3, Outcome.next)

/-- The best_val_loss value after a sequence of evaluated validation
losses, starting from the line-153 initial value 1e9 and applying the
line 315-316 update for each. -/
def bestAfter (always : Bool) (vals : List LossVal) : LossVal :=
  vals.foldl (bestUpdate always) (LossVal.val 1000000000)

/-- C1: gradient-masking postcondition.  After the masking of
lines 344-352: alpha's gradient is zero in every mode; with adam set,
every hyperparameter's gradient is zero; with hyperadam set, every
gradient except beta1's and beta2's is zero while those two are left
untouched; in full mode (neither flag) every gradient other than
alpha's is left untouched. -/
theorem maskGrads_policy (g : HName → ℚ) :
    (∀ a h : Bool, maskGrads a h g HName.alpha = 0) ∧
    (∀ n : HName, maskGrads true false g n = 0) ∧
    (∀ n : HName, n ≠ HName.beta1 → n ≠ HName.beta2 → maskGrads false true g n = 0) ∧
    (maskGrads false true g HName.beta1 = g HName.beta1 ∧
     maskGrads false true g HName.beta2 = g HName.beta2) ∧
    (∀ n : HName, n ≠ HName.alpha → maskGrads false false g n = g n) := by
  refine ⟨?_, ?_, ?_, ⟨?_, ?_⟩, ?_⟩
  · intro a h
    cases a <;> cases h <;> simp [maskGrads]
  · intro n
    simp [maskGrads]
  · intro n h1 h2
    simp [maskGrads, h1, h2]
  · simp [maskGrads]
  · simp [maskGrads]
  · intro n h
    simp [maskGrads, h]

/-- C1 witness: the masking policy at the constant gradient 1, in
hyperadam mode on beta3 and in full mode on gamma. -/
theorem maskGrads_policy_witness :
    maskGrads false true (fun _ => (1 : ℚ)) HName.beta3 = 0 ∧
    maskGrads false false (fun _ => (1 : ℚ)) HName.gamma = 1 :=
  ⟨(maskGrads_policy (fun _ => (1 : ℚ))).2.2.1 HName.beta3 (by decide) (by decide),
   (maskGrads_policy (fun _ => (1 : ℚ))).2.2.2.2 HName.gamma (by decide)⟩

/-- C7: selecting adam and hyperadam together makes the line-98
assertion fail during startup, so startup reports failure and the first
batch read (line 272) never happens. -/
theorem startup_mutual_exclusion (a h : Bool) (ha : a = true) (hh : h = true) :
    (startup a h).2 = false ∧ StartAction.firstBatchRead ∉ (startup a h).1 := by
  subst ha hh
  constructor
  · simp [startup]
  · simp [startup]

/-- C7 witness: startup with both flags literally true. -/
theorem startup_mutual_exclusion_witness :
    (startup true true).2 = false ∧ StartAction.firstBatchRead ∉ (startup true true).1 :=
  startup_mutual_exclusion true true rfl rfl

/-- C3 counterexample: the claim's decay formula fails on a rank-2
parameter with requires_grad = False.  With data 1, alpha = 1 and
weight_decay = 1 the claim predicts new data 1 - 1 * 1 * 1 = 0, but the
line-364 filter skips the parameter, leaving data 1. -/
theorem decay_requires_grad_counterexample :
    ¬ ((decayParam 1 1 ⟨1, 2, false⟩).data = (1 : ℚ) - 1 * 1 * 1) := by
  norm_num [decayParam]

/-- C3 (amended): for every parameter of rank at least 2 that requires
gradients, one decay application yields
data - alpha * weight_decay * data, where alpha is the value currently
held in the learning-rate hyperparameter slot; and with
weight_decay = 0 the decay pass leaves every parameter unchanged. -/
theorem weight_decay_spec :
    (∀ (alpha weight_decay : ℚ) (p : TrainParam), 2 ≤ p.dim → p.requires_grad = true →
        (decayParam alpha weight_decay p).data =
          p.data - alpha * weight_decay * p.data) ∧
    (∀ (alpha : ℚ) (ps : List TrainParam), weightDecayStep alpha 0 ps = ps) := by
  constructor
  · intro alpha weight_decay p hd hg
    simp [decayParam, hd, hg]
  · intro alpha ps
    have hid : ∀ p : TrainParam, decayParam alpha 0 p = p := by
      intro p
      cases p with
      | mk d n r => simp [decayParam]
    simp only [weightDecayStep]
    induction ps with
    | nil => rfl
    | cons p ps ih => simp [hid, ih]

/-- C3 witness: the decay formula on a concrete rank-2 parameter with
data 5, alpha = 2, weight_decay = 3, and the zero-decay pass on a
singleton list. -/
theorem weight_decay_spec_witness :
    (decayParam 2 3 ⟨5, 2, true⟩).data = (5 : ℚ) - 2 * 3 * 5 ∧
    weightDecayStep 2 0 [⟨5, 2, true⟩] = [⟨5, 2, true⟩] :=
  ⟨weight_decay_spec.1 2 3 ⟨5, 2, true⟩ (by decide) rfl,
   weight_decay_spec.2 2 [⟨5, 2, true⟩]⟩

/-- C10: the decay step leaves every parameter untouched that fails the
line-364 filter — parameters with requires_grad = False, even of rank
at least 2, and parameters of rank below 2; a parameter list made only
of such parameters passes through the decay pass unchanged. -/
theorem decay_frame (alpha weight_decay : ℚ) :
    (∀ p : TrainParam, p.requires_grad = false ∨ p.dim < 2 →
        decayParam alpha weight_decay p = p) ∧
    (∀ ps : List TrainParam, (∀ p ∈ ps, p.requires_grad = false ∨ p.dim < 2) →
        weightDecayStep alpha weight_decay ps = ps) := by
  have hone : ∀ p : TrainParam, p.requires_grad = false ∨ p.dim < 2 →
      decayParam alpha weight_decay p = p := by
    intro p hp
    rcases hp with hg | hd
    · simp [decayParam, hg]
    · have : ¬ (2 ≤ p.dim ∧ p.requires_grad = true) := by
        intro h
        omega
      simp [decayParam, this]
  refine ⟨hone, ?_⟩
  intro ps hps
  simp only [weightDecayStep]
  induction ps with
  | nil => rfl
  | cons p ps ih =>
    have hp := hps p (List.mem_cons_self p ps)
    have hrest : ∀ q ∈ ps, q.requires_grad = false ∨ q.dim < 2 := by
      intro q hq
      exact hps q (List.mem_cons_of_mem p hq)
    simp [hone p hp, ih hrest]

/-- C10 witness: a rank-2 frozen parameter and a rank-1 trainable one,
both unchanged by the decay pass. -/
theorem decay_frame_witness :
    decayParam 1 1 ⟨7, 2, false⟩ = ⟨7, 2, false⟩ ∧
    weightDecayStep 1 1 [⟨7, 2, false⟩, ⟨9, 1, true⟩] = [⟨7, 2, false⟩, ⟨9, 1, true⟩] :=
  ⟨(decay_frame 1 1).1 ⟨7, 2, false⟩ (Or.inl rfl),
   (decay_frame 1 1).2 [⟨7, 2, false⟩, ⟨9, 1, true⟩] (by decide)⟩

/-- For a well-formed schedule and a step inside the cosine window the
progress fraction lies in the unit interval. -/
lemma progress_bounds (cfg : LrCfg) (it : ℕ)
    (hwd : cfg.warmup_iters < cfg.lr_decay_iters)
    (h1 : cfg.warmup_iters ≤ it) (h2 : it ≤ cfg.lr_decay_iters) :
    0 ≤ ((it : ℝ) - (cfg.warmup_iters : ℝ)) / ((cfg.lr_decay_iters : ℝ) - (cfg.warmup_iters : ℝ)) ∧
    ((it : ℝ) - (cfg.warmup_iters : ℝ)) / ((cfg.lr_decay_iters : ℝ) - (cfg.warmup_iters : ℝ)) ≤ 1 := by
  have hwd' : (cfg.warmup_iters : ℝ) < (cfg.lr_decay_iters : ℝ) := by
    exact_mod_cast hwd
  have hd : (0 : ℝ) < (cfg.lr_decay_iters : ℝ) - (cfg.warmup_iters : ℝ) := by
    linarith
  have h1' : (cfg.warmup_iters : ℝ) ≤ (it : ℝ) := by exact_mod_cast h1
  have h2' : (it : ℝ) ≤ (cfg.lr_decay_iters : ℝ) := by exact_mod_cast h2
  constructor
  · exact div_nonneg (by linarith) hd.le
  · rw [div_le_one hd]
    linarith

/-- The cosine branch of get_lr evaluated on a well-formed schedule. -/
lemma get_lr_mid (cfg : LrCfg) (it : ℕ)
    (hwd : cfg.warmup_iters < cfg.lr_decay_iters)
    (h1 : cfg.warmup_iters ≤ it) (h2 : it ≤ cfg.lr_decay_iters) :
    get_lr cfg it = some (cfg.min_lr + 0.5 * (1 + Real.cos (Real.pi *
      (((it : ℝ) - (cfg.warmup_iters : ℝ)) / ((cfg.lr_decay_iters : ℝ) - (cfg.warmup_iters : ℝ))))) *
      (cfg.learning_rate - cfg.min_lr)) := by
  unfold get_lr
  rw [if_neg (by omega), if_neg (by omega), if_pos (progress_bounds cfg it hwd h1 h2)]

/-- C2: the learning-rate schedule is the stated piecewise function.
Before warmup it is the linear ramp; at the warmup boundary of a
well-formed schedule it equals the base rate; past the decay horizon of
a well-formed schedule it is the minimum rate; inside the window it is
the cosine interpolation; and on the default configuration
(warmup 2000, decay 600000, base 6e-4, min 6e-5) the values at steps
1000, 600001 and 301000 are 3e-4, 6e-5 and min + 0.5 * (base - min). -/
theorem lr_schedule_spec :
    (∀ (cfg : LrCfg) (step : ℕ), step < cfg.warmup_iters →
        get_lr cfg step = some (cfg.learning_rate * (step : ℝ) / (cfg.warmup_iters : ℝ))) ∧
    (∀ cfg : LrCfg, cfg.warmup_iters < cfg.lr_decay_iters →
        get_lr cfg cfg.warmup_iters = some cfg.learning_rate) ∧
    (∀ (cfg : LrCfg) (step : ℕ), cfg.warmup_iters < cfg.lr_decay_iters →
        cfg.lr_decay_iters < step → get_lr cfg step = some cfg.min_lr) ∧
    (∀ (cfg : LrCfg) (step : ℕ), cfg.warmup_iters < cfg.lr_decay_iters →
        cfg.warmup_iters ≤ step → step ≤ cfg.lr_decay_iters →
        get_lr cfg step = some (cfg.min_lr + 0.5 * (1 + Real.cos (Real.pi *
          (((step : ℝ) - (cfg.warmup_iters : ℝ)) /
            ((cfg.lr_decay_iters : ℝ) - (cfg.warmup_iters : ℝ))))) *
          (cfg.learning_rate - cfg.min_lr))) ∧
    get_lr defaultLrCfg 1000 = some 0.0003 ∧
    get_lr defaultLrCfg 600001 = some 0.00006 ∧
    get_lr defaultLrCfg 301000 = some (0.00006 + 0.5 * (0.0006 - 0.00006)) := by
  refine ⟨?_, ?_, ?_, ?_, ?_, ?_, ?_⟩
  · intro cfg step h
    unfold get_lr
    rw [if_pos h]
  · intro cfg h
    rw [get_lr_mid cfg cfg.warmup_iters h le_rfl h.le]
    simp only [sub_self, zero_div, mul_zero, Real.cos_zero, Option.some_inj]
    ring
  · intro cfg step hwd h
    unfold get_lr
    rw [if_neg (by omega), if_pos h]
  · intro cfg step hwd h1 h2
    exact get_lr_mid cfg step hwd h1 h2
  · unfold get_lr defaultLrCfg
    rw [if_pos (by norm_num)]
    norm_num
  · unfold get_lr defaultLrCfg
    rw [if_neg (by norm_num), if_pos (by norm_num)]
  · have hmid := get_lr_mid defaultLrCfg 301000 (by norm_num [defaultLrCfg])
      (by norm_num [defaultLrCfg]) (by norm_num [defaultLrCfg])
    rw [hmid]
    have hr : (((301000 : ℕ) : ℝ) - ((defaultLrCfg.warmup_iters : ℕ) : ℝ)) /
        (((defaultLrCfg.lr_decay_iters : ℕ) : ℝ) - ((defaultLrCfg.warmup_iters : ℕ) : ℝ)) =
        1 / 2 := by
      norm_num [defaultLrCfg]
    rw [hr]
    have hpi : Real.pi * (1 / 2) = Real.pi / 2 := by ring
    rw [hpi, Real.cos_pi_div_two]
    norm_num [defaultLrCfg]

/-- C2 witness: the warmup branch of the schedule at step 500 of the
default configuration. -/
theorem lr_schedule_spec_witness :
    get_lr defaultLrCfg 500 =
      some (defaultLrCfg.learning_rate * ((500 : ℕ) : ℝ) / (defaultLrCfg.warmup_iters : ℝ)) :=
  lr_schedule_spec.1 defaultLrCfg 500 (by norm_num [defaultLrCfg])

/-- C9: on a well-formed schedule (warmup_iters < lr_decay_iters) the
line-262 assertion 0 <= decay_ratio <= 1 never fails: get_lr returns a
value at every step. -/
theorem get_lr_assert_safe (cfg : LrCfg)
    (h : cfg.warmup_iters < cfg.lr_decay_iters) (it : ℕ) :
    get_lr cfg it ≠ none := by
  unfold get_lr
  split_ifs with h1 h2 h3
  · simp
  · simp
  · simp
  · exact absurd (progress_bounds cfg it h (by omega) (by omega)) h3

/-- C9 witness: the default schedule is well-formed and the assertion
holds at step 301000. -/
theorem get_lr_assert_safe_witness :
    defaultLrCfg.warmup_iters < defaultLrCfg.lr_decay_iters ∧
    get_lr defaultLrCfg 301000 ≠ none :=
  ⟨by norm_num [defaultLrCfg],
   get_lr_assert_safe defaultLrCfg (by norm_num [defaultLrCfg]) 301000⟩

/-- C4 counterexample: at iteration 0 on the master process with
always_save_checkpoint set, the claim's trigger condition holds (0 is a
multiple of eval_interval, the process is the leader, always-save is
set), yet the line-317 guard iter_num > 0 suppresses the write: only
the evaluation runs. -/
theorem checkpoint_iter_zero_counterexample :
    (0 : ℕ) % 2000 = 0 ∧
    (evalCkptBlock ⟨2000, 1, 10, true, true, false, true, false, false⟩
        ⟨0, LossVal.val 10, none, none⟩ (LossVal.val 1, LossVal.val 2)).1 =
      [Event.evalPass] := by
  decide

/-- C4 (amended): a checkpoint is written exactly when the iteration
count is a multiple of eval_interval, the process is the leader, the
validation loss improved or always_save_checkpoint is set, and the
iteration count is positive. -/
theorem checkpoint_trigger (cfg : LoopCfg) (st : LoopSt) (pe : LossVal × LossVal) :
    Event.checkpointWrite ∈ (evalCkptBlock cfg st pe).1 ↔
      (st.iter_num % cfg.eval_interval = 0 ∧ cfg.master_process = true ∧
       (LossVal.ltB pe.2 st.best_val_loss = true ∨ cfg.always_save_checkpoint = true) ∧
       0 < st.iter_num) := by
  unfold evalCkptBlock
  split_ifs with h1 h2 h3 <;> simp_all

/-- C4 witness: a concrete iteration where all four trigger conjuncts
hold and the checkpoint write occurs. -/
theorem checkpoint_trigger_witness :
    Event.checkpointWrite ∈
      (evalCkptBlock ⟨2000, 1, 10, true, true, false, true, false, false⟩
        ⟨2000, LossVal.val 10, none, none⟩ (LossVal.val 1, LossVal.val 2)).1 :=
  (checkpoint_trigger ⟨2000, 1, 10, true, true, false, true, false, false⟩
    ⟨2000, LossVal.val 10, none, none⟩ (LossVal.val 1, LossVal.val 2)).mpr (by decide)

/-- C6 counterexample: with always_save_checkpoint set (the default),
best_val_loss is overwritten by every evaluated validation loss, so it
increases when the loss worsens: after losses 1 then 2 it holds 2, not
the minimum 1. -/
theorem best_val_loss_counterexample :
    bestAfter true [LossVal.val 1] = LossVal.val 1 ∧
    bestAfter true [LossVal.val 1, LossVal.val 2] = LossVal.val 2 ∧
    LossVal.ltB (LossVal.val 1) (LossVal.val 2) = true := by
  decide

/-- The line 315-316 update on finite losses with always-save disabled
is the binary minimum. -/
lemma bestUpdate_val (b v : ℚ) :
    bestUpdate false (LossVal.val b) (LossVal.val v) = LossVal.val (min b v) := by
  by_cases h : v < b
  · simp [bestUpdate, LossVal.ltB, h, min_eq_right h.le]
  · simp [bestUpdate, LossVal.ltB, h, min_eq_left (not_lt.mp h)]

/-- Folding the update over finite losses computes the running
minimum. -/
lemma bestAfter_fold (vals : List ℚ) : ∀ init : ℚ,
    (vals.map LossVal.val).foldl (bestUpdate false) (LossVal.val init) =
      LossVal.val (vals.foldl min init) := by
  induction vals with
  | nil => intro init; rfl
  | cons v vs ih =>
    intro init
    simp only [List.map_cons, List.foldl_cons, bestUpdate_val]
    exact ih (min init v)

/-- A left min-fold is bounded by its initial value. -/
lemma foldl_min_le_init (vals : List ℚ) : ∀ init : ℚ, vals.foldl min init ≤ init := by
  induction vals with
  | nil => intro init; exact le_refl init
  | cons v vs ih =>
    intro init
    exact le_trans (ih (min init v)) (min_le_left init v)

/-- A left min-fold is bounded by every list element. -/
lemma foldl_min_le_mem (vals : List ℚ) : ∀ init : ℚ, ∀ v ∈ vals, vals.foldl min init ≤ v := by
  induction vals with
  | nil => intro init v hv; exact absurd hv (List.not_mem_nil v)
  | cons w ws ih =>
    intro init v hv
    rcases List.mem_cons.mp hv with h | h
    · subst h
      exact le_trans (foldl_min_le_init ws (min init v)) (min_le_right init v)
    · exact ih (min init w) v h

/-- C6 (amended): with always_save_checkpoint disabled, best_val_loss
after any sequence of finite evaluated validation losses is the minimum
of the initial 1e9 and all losses seen: it is a lower bound of every
observed loss, it is the initial value or one of the losses, and a
further evaluation never increases it.  With always-save enabled it
instead tracks the most recent loss (see the counterexample); in both
cases the eval block updates best_val_loss by bestUpdate. -/
theorem best_val_loss_min (vals : List ℚ) :
    bestAfter false (vals.map LossVal.val) = LossVal.val (vals.foldl min 1000000000) ∧
    (∀ v ∈ vals, vals.foldl min 1000000000 ≤ v) ∧
    (∀ v : ℚ, (vals ++ [v]).foldl min 1000000000 ≤ vals.foldl min 1000000000) ∧
    (∀ (cfg : LoopCfg) (st : LoopSt) (pe : LossVal × LossVal),
        st.iter_num % cfg.eval_interval = 0 → cfg.master_process = true →
        ((evalCkptBlock cfg st pe).2).best_val_loss =
          bestUpdate cfg.always_save_checkpoint st.best_val_loss pe.2) := by
  refine ⟨bestAfter_fold vals 1000000000, foldl_min_le_mem vals 1000000000, ?_, ?_⟩
  · intro v
    rw [List.foldl_append]
    exact min_le_left _ v
  · intro cfg st pe hei hm
    unfold evalCkptBlock
    rw [if_pos ⟨hei, hm⟩]
    split_ifs <;> rfl

/-- C6 witness: the minimum characterization on the concrete loss
sequence 3, 1, 2. -/
theorem best_val_loss_min_witness :
    bestAfter false (([3, 1, 2] : List ℚ).map LossVal.val) =
      LossVal.val (([3, 1, 2] : List ℚ).foldl min 1000000000) ∧
    ([3, 1, 2] : List ℚ).foldl min 1000000000 ≤ 1 :=
  ⟨(best_val_loss_min [3, 1, 2]).1,
   (best_val_loss_min [3, 1, 2]).2.1 1 (by norm_num)⟩

/-- C5 counterexample: an infinite training loss does not terminate the
loop.  The line-392 check is math.isnan, so with losses holding
(+inf, 2) at an iteration where neither the eval cadence nor the
iteration budget triggers, the body falls through to the next
iteration. -/
theorem inf_loss_continues_counterexample :
    LossVal.isfinite LossVal.inf = false ∧
    (loopBody ⟨2000, 1, 10, true, true, false, true, false, false⟩
        ⟨1, LossVal.val 10, some (LossVal.inf, LossVal.val 2), none⟩
        (LossVal.val 3) (LossVal.val 1, LossVal.val 1) (LossVal.val 1, LossVal.val 1)).2.2 =
      Outcome.next := by
  decide

/-- C5 (amended): whenever the last evaluated training loss is NaN, a
leader process with per-iteration logging and hypergrad summary logging
enabled performs, in its final pass through the body, the periodic log
write, then exactly one more evaluation pass and one summary write, and
breaks out of the loop; the iteration is not retried. -/
theorem nan_loss_terminates (cfg : LoopCfg) (st : LoopSt) (cur : LossVal)
    (pe fe : LossVal × LossVal) (l : LossVal × LossVal)
    (hm : cfg.master_process = true) (hg : cfg.hypergrad = true)
    (hli : cfg.log_interval = 1) (hei : st.iter_num % cfg.eval_interval ≠ 0)
    (hl : st.losses = some l) (hnan : l.1.isnan = true) :
    (loopBody cfg st cur pe fe).1 = [Event.logWrite, Event.evalPass, Event.summaryWrite] ∧
    (loopBody cfg st cur pe fe).2.2 = Outcome.broke := by
  have hiter : st.iter_num ≠ 0 := by
    intro h0
    exact hei (by rw [h0]; exact Nat.zero_mod _)
  have hc1 : (st.iter_num % cfg.eval_interval = 0 ∧ cfg.master_process = true) = False := by
    simp [hei]
  have hc2 : (st.iter_num = 0 ∧ cfg.eval_only = true) = False := by
    simp [hiter]
  have hc3 : (st.iter_num % cfg.log_interval = 0 ∧ cfg.master_process = true) = True := by
    simp [hli, Nat.mod_one, hm]
  have key : loopBody cfg st cur pe fe =
      ([Event.logWrite, Event.evalPass, Event.summaryWrite],
       ⟨st.iter_num + 1, st.best_val_loss, some fe, some cur⟩, Outcome.broke) := by
    by_cases hmi : cfg.max_iters < st.iter_num + 1
    · simp [loopBody, evalCkptBlock, logBlock, termBlock, hc1, hc2, hc3, hl, hg, hmi]
    · simp [loopBody, evalCkptBlock, logBlock, termBlock, hc1, hc2, hc3, hl, hg, hmi, hnan]
  rw [key]
  exact ⟨rfl, rfl⟩

/-- C5 witness: a concrete leader state whose last evaluated training
loss is NaN at iteration 1. -/
theorem nan_loss_terminates_witness :
    (loopBody ⟨2000, 1, 10, true, true, false, true, false, false⟩
        ⟨1, LossVal.val 10, some (LossVal.nan, LossVal.val 2), none⟩
        (LossVal.val 3) (LossVal.val 1, LossVal.val 1) (LossVal.val 1, LossVal.val 1)).1 =
      [Event.logWrite, Event.evalPass, Event.summaryWrite] ∧
    (loopBody ⟨2000, 1, 10, true, true, false, true, false, false⟩
        ⟨1, LossVal.val 10, some (LossVal.nan, LossVal.val 2), none⟩
        (LossVal.val 3) (LossVal.val 1, LossVal.val 1) (LossVal.val 1, LossVal.val 1)).2.2 =
      Outcome.broke :=
  nan_loss_terminates ⟨2000, 1, 10, true, true, false, true, false, false⟩
    ⟨1, LossVal.val 10, some (LossVal.nan, LossVal.val 2), none⟩
    (LossVal.val 3) (LossVal.val 1, LossVal.val 1) (LossVal.val 1, LossVal.val 1)
    (LossVal.nan, LossVal.val 2) rfl rfl rfl (by decide) rfl rfl

/-- C8 counterexample: a non-leader process does perform an evaluation
pass.  When the iteration budget is exhausted, the unguarded
termination block of lines 393-414 runs estimate_loss on every process:
with master_process = false the body's event list is exactly one
evaluation pass (after which the process dies on the unbound lossf of
line 398). -/
theorem non_master_eval_counterexample :
    (⟨2000, 1, 0, false, true, false, true, false, false⟩ : LoopCfg).master_process = false ∧
    (loopBody ⟨2000, 1, 0, false, true, false, true, false, false⟩
        ⟨0, LossVal.val 10, none, none⟩ (LossVal.val 3)
        (LossVal.val 1, LossVal.val 1) (LossVal.val 1, LossVal.val 1)).1 =
      [Event.evalPass] := by
  decide

/-- C8 (amended): a non-leader process that has never bound lossf
performs no checkpoint write, no periodic log write and no summary
results write in any pass through the loop body; the only I/O it can
perform is the termination block's final evaluation pass. -/
theorem non_master_no_io (cfg : LoopCfg) (st : LoopSt) (cur : LossVal)
    (pe fe : LossVal × LossVal)
    (hm : cfg.master_process = false) (hlf : st.lossf = none) :
    Event.checkpointWrite ∉ (loopBody cfg st cur pe fe).1 ∧
    Event.logWrite ∉ (loopBody cfg st cur pe fe).1 ∧
    Event.summaryWrite ∉ (loopBody cfg st cur pe fe).1 := by
  by_cases h1 : st.iter_num = 0 ∧ cfg.eval_only = true
  · simp [loopBody, evalCkptBlock, hm, h1]
  · by_cases h2 : cfg.max_iters < st.iter_num + 1
    · simp [loopBody, evalCkptBlock, logBlock, termBlock, hm, hlf, h1, h2]
    · cases hls : st.losses with
      | none => simp [loopBody, evalCkptBlock, logBlock, hm, h1, h2, hls]
      | some l =>
        by_cases h3 : l.1.isnan = true
        · simp [loopBody, evalCkptBlock, logBlock, termBlock, hm, hlf, h1, h2, hls, h3]
        · simp [loopBody, evalCkptBlock, logBlock, hm, h1, h2, hls, h3]

/-- C8 witness: the non-leader guarantee at a concrete configuration
and state. -/
theorem non_master_no_io_witness :
    Event.checkpointWrite ∉
      (loopBody ⟨2000, 1, 0, false, true, false, true, false, false⟩
        ⟨0, LossVal.val 10, none, none⟩ (LossVal.val 3)
        (LossVal.val 1, LossVal.val 1) (LossVal.val 1, LossVal.val 1)).1 ∧
    Event.logWrite ∉
      (loopBody ⟨2000, 1, 0, false, true, false, true, false, false⟩
        ⟨0, LossVal.val 10, none, none⟩ (LossVal.val 3)
        (LossVal.val 1, LossVal.val 1) (LossVal.val 1, LossVal.val 1)).1 ∧
    Event.summaryWrite ∉
      (loopBody ⟨2000, 1, 0, false, true, false, true, false, false⟩
        ⟨0, LossVal.val 10, none, none⟩ (LossVal.val 3)
        (LossVal.val 1, LossVal.val 1) (LossVal.val 1, LossVal.val 1)).1 :=
  non_master_no_io ⟨2000, 1, 0, false, true, false, true, false, false⟩
    ⟨0, LossVal.val 10, none, none⟩ (LossVal.val 3)
    (LossVal.val 1, LossVal.val 1) (LossVal.val 1, LossVal.val 1) rfl rfl

end Mada
